import Mathlib

/-!
Verification of the Simple-Journal note service and AI content generator.

The embedding follows the repository sources:
* the SQLite-backed notes service (interfaces `Note`, `CreateNoteDTO`,
  `UpdateNoteDTO` and functions `generateId`, `getAllNotes`, `getNoteById`,
  `createNote`, `updateNote`, `searchNotes`, `importNotes`);
* the Gemini request helper `generateGeminiContent` with its retry loop.

Modelling conventions:
* ISO-8601 timestamp strings (`createdAt`, `updatedAt`) are modelled by the
  underlying millisecond counts (`Nat`); lexicographic order on the sortable
  ISO strings corresponds to numeric order on these counts.
* The locale-dependent display string `date` is kept as a `String`, produced
  by a formatting function `fmtDate : Nat → String` passed as a parameter
  (the code calls `toLocaleDateString`, which the embedding cannot compute).
* The SQLite `notes` table is a list of rows in insertion order; `INSERT`
  appends, `UPDATE ... WHERE id = ?` rewrites the matching rows in place,
  `ORDER BY updatedAt DESC` is a sort by descending `updatedAt`.
* `Date.now()` and the random id suffix are environment inputs, passed
  explicitly (`now : Nat`, `suffix : String`).
* JavaScript `undefined` on an optional DTO field is `none`; for the
  tri-state `categoryId` field of `UpdateNoteDTO`, `none` is undefined,
  `some none` is an explicit `null`, and `some (some c)` is a string value.
* Thrown errors become `Except` values; state-changing operations return the
  resulting store next to the result, the error branch leaving it unchanged
  exactly where the code throws before writing.
-/

namespace SimpleJournal

/-- A row of the `notes` table / the `Note` interface of the notes service. -/
structure Note where
  id : String
  title : String
  content : String
  emoji : String
  date : String
  color : String
  createdAt : Nat
  updatedAt : Nat
  categoryId : Option String
  userId : Option String
deriving Repr, DecidableEq

/-- The `CreateNoteDTO` interface: `categoryId` and `userId` are optional. -/
structure CreateNoteDTO where
  title : String
  content : String
  emoji : String
  color : String
  categoryId : Option String
  userId : Option String
deriving Repr, DecidableEq

/-- The `UpdateNoteDTO` interface. All fields but `id` are optional
(`none` = absent/undefined). For `categoryId` the runtime check
`noteData.categoryId !== undefined` distinguishes three states, modelled by
`Option (Option String)`: `none` = undefined, `some none` = explicit null,
`some (some c)` = a category id. -/
structure UpdateNoteDTO where
  id : String
  title : Option String
  content : Option String
  emoji : Option String
  color : Option String
  categoryId : Option (Option String)
deriving Repr, DecidableEq

/-- The distinct throw sites of the notes service: the empty-title
validation throw of `createNote` and the missing-note throw of
`updateNote` / `deleteNote`. -/
inductive NotesError where
  | validationError (msg : String)
  | notFoundError (msg : String)
deriving Repr, DecidableEq

/-- JavaScript `String.prototype.trim`: removes leading and trailing
whitespace (the ASCII whitespace the embedding covers). -/
def jsTrim (s : String) : String :=
  ⟨((s.data.dropWhile Char.isWhitespace).reverse.dropWhile Char.isWhitespace).reverse⟩

/-- JavaScript `String.prototype.toLowerCase` and SQLite `LOWER`, both
restricted to their common ASCII behavior: lower-case every character. -/
def jsToLower (s : String) : String :=
  ⟨s.data.map Char.toLower⟩

/-- JavaScript falsy coalescing `v || null` applied to an optional string:
`undefined` and the empty string both become `null`. -/
def jsOrNull : Option String → Option String
  | none => none
  | some s => if s = "" then none else some s

/-- `generateId`: the template string `Date.now() + "-" + randomSuffix`,
where the suffix is the base-36 fraction `Math.random().toString(36).substr(2, 9)`
supplied by the environment. -/
def generateId (now : Nat) (suffix : String) : String :=
  toString now ++ "-" ++ suffix

/-- The `notes` table, rows in insertion order. -/
abbrev NotesDB := List Note

/-- `getNoteById`: `SELECT * FROM notes WHERE id = ?` taking the first row. -/
def getNoteById (db : NotesDB) (id : String) : Option Note :=
  db.find? (fun n => n.id == id)

/-- The comparison realised by `ORDER BY updatedAt DESC`. -/
def byUpdatedAtDesc (a b : Note) : Prop := b.updatedAt ≤ a.updatedAt

instance : DecidableRel byUpdatedAtDesc := fun _ _ => Nat.decLe _ _

instance : IsTotal Note byUpdatedAtDesc := ⟨fun a b => Nat.le_total b.updatedAt a.updatedAt⟩

instance : IsTrans Note byUpdatedAtDesc := ⟨fun _ _ _ hab hbc => Nat.le_trans hbc hab⟩

/-- `ORDER BY updatedAt DESC` on a set of selected rows. -/
def sortByUpdatedAtDesc (rows : List Note) : List Note :=
  rows.insertionSort byUpdatedAtDesc

/-- The optional `WHERE userId = ?` filter shared by the SELECT queries. -/
def rowsForUser (db : NotesDB) (userId : Option String) : List Note :=
  match userId with
  | none => db
  | some u => db.filter (fun n => n.userId == some u)

/-- `getAllNotes`: all notes (optionally of one user) ordered by
`updatedAt` descending. -/
def getAllNotes (db : NotesDB) (userId : Option String) : List Note :=
  sortByUpdatedAtDesc (rowsForUser db userId)

/-- `createNote`: validates that the trimmed title is non-empty (throwing
`El título no puede estar vacío` otherwise, before any write), builds the
new note (trimmed title and content, emoji defaulted through the JS falsy
rule, `createdAt = updatedAt = now`) and inserts it. Returns the
result next to the resulting store. -/
def createNote (fmtDate : Nat → String) (db : NotesDB) (noteData : CreateNoteDTO)
    (now : Nat) (suffix : String) : Except NotesError Note × NotesDB :=
  if jsTrim noteData.title = "" then
    (.error (.validationError "El título no puede estar vacío"), db)
  else
    let newNote : Note := {
      id := generateId now suffix
      title := jsTrim noteData.title
      content := jsTrim noteData.content
      emoji := if noteData.emoji = "" then "📝" else noteData.emoji
      color := noteData.color
      date := fmtDate now
      createdAt := now
      updatedAt := now
      categoryId := jsOrNull noteData.categoryId
      userId := jsOrNull noteData.userId }
    (.ok newNote, db ++ [newNote])

/-- The merged note built by `updateNote`:
`title: noteData.title?.trim() ?? existingNote.title` and likewise for
`content`; `emoji`/`color` via `??`; `categoryId` via the tri-state check
`noteData.categoryId !== undefined ? noteData.categoryId : existingNote.categoryId`;
`date` and `updatedAt` recomputed from `now`. -/
def mergeNote (existingNote : Note) (noteData : UpdateNoteDTO)
    (fmtDate : Nat → String) (now : Nat) : Note :=
  { existingNote with
    title := match noteData.title with
      | some t => jsTrim t
      | none => existingNote.title
    content := match noteData.content with
      | some c => jsTrim c
      | none => existingNote.content
    emoji := noteData.emoji.getD existingNote.emoji
    color := noteData.color.getD existingNote.color
    categoryId := match noteData.categoryId with
      | some c => c
      | none => existingNote.categoryId
    date := fmtDate now
    updatedAt := now }

/-- `updateNote`: loads the existing note (throwing `Nota no encontrada`
when absent, leaving the store untouched), merges the DTO into it and
rewrites the matching row. -/
def updateNote (fmtDate : Nat → String) (db : NotesDB) (noteData : UpdateNoteDTO)
    (now : Nat) : Except NotesError Note × NotesDB :=
  match getNoteById db noteData.id with
  | none => (.error (.notFoundError "Nota no encontrada"), db)
  | some existingNote =>
    let updatedNote := mergeNote existingNote noteData fmtDate now
    (.ok updatedNote, db.map (fun n => if n.id == noteData.id then updatedNote else n))

/-- SQLite `LIKE` pattern matching over characters already lower-cased:
`%` matches any sequence, `_` matches any single character, any other
pattern character matches itself. -/
def likeMatch : (p : List Char) → (s : List Char) → Bool
  | [], s => s.isEmpty
  | c :: ps, s =>
    if c = '%' then
      likeMatch ps s ||
        (match s with
         | [] => false
         | _ :: s2 => likeMatch (c :: ps) s2)
    else
      match s with
      | [] => false
      | x :: s2 => if c = '_' ∨ c = x then likeMatch ps s2 else false
termination_by p s => (p.length, s.length)

/-- The row predicate of `searchNotes`:
`LOWER(title) LIKE pattern OR LOWER(content) LIKE pattern`. -/
def noteMatchesLike (pat : List Char) (n : Note) : Bool :=
  likeMatch pat (jsToLower n.title).toList || likeMatch pat (jsToLower n.content).toList

/-- `searchNotes`: lower-cases and trims the query; an empty search term
returns `getAllNotes`; otherwise selects the rows matching
`LIKE '%' + term + '%'` on lowered title or content, ordered by
`updatedAt` descending. -/
def searchNotes (db : NotesDB) (query : String) (userId : Option String) : List Note :=
  let searchTerm := jsTrim (jsToLower query)
  if searchTerm = "" then getAllNotes db userId
  else
    let pat := '%' :: (searchTerm.toList ++ ['%'])
    sortByUpdatedAtDesc ((rowsForUser db userId).filter (noteMatchesLike pat))

/-- The row actually inserted by `importNotes` for a non-colliding note:
every field verbatim except `categoryId` and `userId`, which pass through
`note.categoryId || null` / `note.userId || null`. -/
def importedRow (note : Note) : Note :=
  { note with
    categoryId := jsOrNull note.categoryId
    userId := jsOrNull note.userId }

/-- `importNotes`: for each note in order, skip it when `getNoteById`
finds an existing row with its id, otherwise insert it. -/
def importNotes (db : NotesDB) : List Note → NotesDB
  | [] => db
  | note :: rest =>
    match getNoteById db note.id with
    | some _ => importNotes db rest
    | none => importNotes (db ++ [importedRow note]) rest

/-- The `GemeniResponse` interface: the extracted text and the
`{uri, title}` source pairs. -/
structure GemeniResponse where
  text : String
  sources : List (String × String)
deriving Repr, DecidableEq

/-- What one `fetch` attempt of `generateGeminiContent` yields, as supplied
by the environment: a non-2xx HTTP response (which the code turns into a
thrown `Error HTTP <status>: <body>`), a 2xx response whose JSON carries no
candidate text (thrown as incomplete), or a candidate with text and the
optional grounding attributions as `(web.uri, web.title)` pairs. -/
inductive FetchOutcome where
  | httpError (status : Nat) (body : String)
  | incomplete
  | success (text : String) (attributions : List (Option String × Option String))
deriving Repr, DecidableEq

/-- The source-citation extraction: map each attribution to
`{uri: web?.uri, title: web?.title}` and keep the pairs where both are
JS-truthy (present and non-empty). -/
def extractSources (attributions : List (Option String × Option String)) :
    List (String × String) :=
  attributions.filterMap fun a =>
    match a with
    | (some u, some t) => if u = "" ∨ t = "" then none else some (u, t)
    | _ => none

/-- Processing of a single attempt body: HTTP failure and incomplete
responses throw, a good candidate returns text plus extracted sources. -/
def processOutcome : FetchOutcome → Except String GemeniResponse
  | .httpError status body => .error ("Error HTTP " ++ toString status ++ ": " ++ body)
  | .incomplete => .error "Respuesta de la API incompleta o sin contenido."
  | .success text attributions => .ok { text := text, sources := extractSources attributions }

def MAX_RETRIES : Nat := 3

/-- The exhaustion error thrown after the loop. -/
def exhaustedMsg (lastError : Option String) : String :=
  "Fallo al generar contenido después de " ++ toString MAX_RETRIES ++
    " intentos. Último error: " ++ lastError.getD "Desconocido"

deriving instance DecidableEq for Except

/-- An observable run of `generateGeminiContent`: the returned or thrown
result, the number of fetch attempts made, and the backoff delays actually
slept (in milliseconds, in order). -/
structure GeminiRun where
  result : Except String GemeniResponse
  attemptsMade : Nat
  delays : List Nat
deriving Repr, DecidableEq

/-- The retry loop `for (attempt = 0; attempt < MAX_RETRIES; attempt++)`.
`remaining = MAX_RETRIES - attempt` iterations are left. Each iteration
computes `delay = 2 ^ attempt * 1000` and sleeps it only when
`attempt > 0`; a successful attempt returns, a thrown attempt records the
error and continues. -/
def geminiLoop (outcomes : Nat → FetchOutcome) :
    (remaining : Nat) → (attempt : Nat) → (lastError : Option String) → GeminiRun
  | 0, attempt, lastError =>
    { result := .error (exhaustedMsg lastError), attemptsMade := attempt, delays := [] }
  | remaining + 1, attempt, _ =>
    let delay := 2 ^ attempt * 1000
    let slept := if 0 < attempt then [delay] else []
    match processOutcome (outcomes attempt) with
    | .ok r => { result := .ok r, attemptsMade := attempt + 1, delays := slept }
    | .error e =>
      let next := geminiLoop outcomes remaining (attempt + 1) (some e)
      { next with delays := slept ++ next.delays }

/-- `generateGeminiContent`: a falsy (absent/empty) API key throws before
any attempt; otherwise the retry loop runs with `MAX_RETRIES` iterations
from attempt 0. The per-attempt fetch outcomes are environment input. -/
def generateGeminiContent (apiKey : String) (outcomes : Nat → FetchOutcome) : GeminiRun :=
  if apiKey = "" then
    { result := .error "La clave de API de Gemini no está configurada. Revisa el archivo .env.",
      attemptsMade := 0, delays := [] }
  else geminiLoop outcomes MAX_RETRIES 0 none

/-- Modelled from the spec: the classification of authorization failures
(credential rejected / insufficient permission) as HTTP status 401 or 403.
The source itself never classifies failures, which is what the claims about
authorization handling are checked against. -/
def isAuthFailure : FetchOutcome → Bool
  | .httpError status _ => status == 401 || status == 403
  | _ => false

/-- A sample formatting function standing in for `toLocaleDateString` in
concrete instantiations. -/
def fmtW : Nat → String := fun t => toString t

/-- A sample stored note used by concrete instantiations. -/
def noteW : Note := ⟨"1", "T", "C", "e", "d", "#fff", 10, 10, some "c1", none⟩

/-! ### Helper lemmas -/

theorem jsTrim_of_all_whitespace {w : String} (h : w.data.all Char.isWhitespace = true) :
    jsTrim w = "" := by
  have h' : ∀ c ∈ w.data, Char.isWhitespace c := by simpa using h
  unfold jsTrim
  rw [List.dropWhile_eq_nil_iff.mpr h']
  rfl

theorem getNoteById_id {db : NotesDB} {id : String} {ex : Note}
    (h : getNoteById db id = some ex) : ex.id = id := by
  unfold getNoteById at h
  have hp := List.find?_some h
  simp only [beq_iff_eq] at hp
  exact hp

theorem find?_map_replace {db : NotesDB} {i : String} {ex u : Note}
    (hfind : db.find? (fun n => n.id == i) = some ex) (hu : u.id = i) :
    (db.map (fun n => if n.id == i then u else n)).find? (fun n => n.id == i) = some u := by
  induction db with
  | nil => simp at hfind
  | cons h t ih =>
    by_cases hh : h.id = i
    · simp [hh, hu]
    · have hb : (h.id == i) = false := by simp [hh]
      have h1 : (if h.id == i then u else h) = h := by simp [hb]
      rw [List.find?_cons_of_neg _ (by simp [hb])] at hfind
      simp only [List.map_cons, h1]
      rw [List.find?_cons_of_neg _ (by simp [hb])]
      exact ih hfind

theorem updateNote_ok {fmtDate : Nat → String} {db : NotesDB} {dto : UpdateNoteDTO}
    {ex : Note} {now : Nat} (hex : getNoteById db dto.id = some ex) :
    updateNote fmtDate db dto now =
      (.ok (mergeNote ex dto fmtDate now),
       db.map (fun n => if n.id == dto.id then mergeNote ex dto fmtDate now else n)) := by
  unfold updateNote
  rw [hex]

/-! ### Claim theorems -/

/-- C5: for every `CreateNoteDTO` whose title is empty or all-whitespace,
`createNote` fails with the validation error and the notes store is
returned unchanged (the throw happens before the INSERT). -/
theorem createNote_blank_title_rejected (fmtDate : Nat → String) (db : NotesDB)
    (dto : CreateNoteDTO) (now : Nat) (sfx : String)
    (hw : dto.title.data.all Char.isWhitespace = true) :
    createNote fmtDate db dto now sfx =
      (.error (.validationError "El título no puede estar vacío"), db) := by
  simp [createNote, jsTrim_of_all_whitespace hw]

theorem createNote_blank_title_rejected_witness :
    ("  ".data.all Char.isWhitespace = true) ∧
      createNote fmtW [] ⟨"  ", "x", "e", "#f", none, none⟩ 20 "abc" =
        (.error (.validationError "El título no puede estar vacío"), []) :=
  ⟨by decide, createNote_blank_title_rejected fmtW [] ⟨"  ", "x", "e", "#f", none, none⟩
    20 "abc" (by decide)⟩

/-- C1: for an existing note, `updateNote` merges only the fields present
in the DTO: an absent (undefined) field leaves the stored value unchanged,
and for `categoryId` an explicit null (`some none`) clears the category,
distinctly from leaving it unchanged. -/
theorem updateNote_tristate_merge (fmtDate : Nat → String) (db : NotesDB)
    (dto : UpdateNoteDTO) (ex : Note) (now : Nat)
    (hex : getNoteById db dto.id = some ex) :
    ∃ u db2, updateNote fmtDate db dto now = (.ok u, db2) ∧
      (dto.title = none → u.title = ex.title) ∧
      (dto.content = none → u.content = ex.content) ∧
      (dto.emoji = none → u.emoji = ex.emoji) ∧
      (dto.color = none → u.color = ex.color) ∧
      (dto.categoryId = none → u.categoryId = ex.categoryId) ∧
      (dto.categoryId = some none → u.categoryId = none) ∧
      (∀ c, dto.categoryId = some (some c) → u.categoryId = some c) := by
  refine ⟨_, _, updateNote_ok hex, ?_, ?_, ?_, ?_, ?_, ?_, ?_⟩
  · intro h; simp [mergeNote, h]
  · intro h; simp [mergeNote, h]
  · intro h; simp [mergeNote, h]
  · intro h; simp [mergeNote, h]
  · intro h; simp [mergeNote, h]
  · intro h; simp [mergeNote, h]
  · intro c h; simp [mergeNote, h]

theorem updateNote_tristate_merge_witness :
    (getNoteById [noteW] (UpdateNoteDTO.mk "1" none none none none (some none)).id =
        some noteW) ∧
      (∃ u db2,
        updateNote fmtW [noteW] ⟨"1", none, none, none, none, some none⟩ 30 = (.ok u, db2) ∧
        ((UpdateNoteDTO.mk "1" none none none none (some none)).title = none →
          u.title = noteW.title) ∧
        ((UpdateNoteDTO.mk "1" none none none none (some none)).content = none →
          u.content = noteW.content) ∧
        ((UpdateNoteDTO.mk "1" none none none none (some none)).emoji = none →
          u.emoji = noteW.emoji) ∧
        ((UpdateNoteDTO.mk "1" none none none none (some none)).color = none →
          u.color = noteW.color) ∧
        ((UpdateNoteDTO.mk "1" none none none none (some none)).categoryId = none →
          u.categoryId = noteW.categoryId) ∧
        ((UpdateNoteDTO.mk "1" none none none none (some none)).categoryId = some none →
          u.categoryId = none) ∧
        (∀ c, (UpdateNoteDTO.mk "1" none none none none (some none)).categoryId =
          some (some c) → u.categoryId = some c)) :=
  ⟨by decide, updateNote_tristate_merge fmtW [noteW] ⟨"1", none, none, none, none, some none⟩
    noteW 30 (by decide)⟩

/-- C4: for an existing note, `updateNote` with only `content` set leaves
`title`, `emoji`, `color`, `categoryId` unchanged; provided the clock has
advanced past the prior `updatedAt`, the new `updatedAt` is strictly
greater. -/
theorem updateNote_content_only_frame (fmtDate : Nat → String) (db : NotesDB)
    (dto : UpdateNoteDTO) (ex : Note) (now : Nat) (c : String)
    (hex : getNoteById db dto.id = some ex)
    (ht : dto.title = none) (_hc : dto.content = some c) (he : dto.emoji = none)
    (hcol : dto.color = none) (hcat : dto.categoryId = none)
    (hclock : ex.updatedAt < now) :
    ∃ u db2, updateNote fmtDate db dto now = (.ok u, db2) ∧
      u.title = ex.title ∧ u.emoji = ex.emoji ∧ u.color = ex.color ∧
      u.categoryId = ex.categoryId ∧ ex.updatedAt < u.updatedAt := by
  refine ⟨_, _, updateNote_ok hex, ?_, ?_, ?_, ?_, ?_⟩
  · simp [mergeNote, ht]
  · simp [mergeNote, he]
  · simp [mergeNote, hcol]
  · simp [mergeNote, hcat]
  · simpa [mergeNote] using hclock

theorem updateNote_content_only_frame_witness :
    (getNoteById [noteW] "1" = some noteW) ∧ (noteW.updatedAt < 30) ∧
      (∃ u db2,
        updateNote fmtW [noteW] ⟨"1", none, some " new ", none, none, none⟩ 30 =
          (.ok u, db2) ∧
        u.title = noteW.title ∧ u.emoji = noteW.emoji ∧ u.color = noteW.color ∧
        u.categoryId = noteW.categoryId ∧ noteW.updatedAt < u.updatedAt) :=
  ⟨by decide, by decide,
    updateNote_content_only_frame fmtW [noteW] ⟨"1", none, some " new ", none, none, none⟩
      noteW 30 " new " (by decide) rfl rfl rfl rfl rfl (by decide)⟩

/-- C10: for an existing note, `updateNote` with no updatable field set
leaves `title`, `content`, `emoji`, `color` and `categoryId` unchanged but
still rewrites `date` and `updatedAt` from the current time. -/
theorem updateNote_id_only_refreshes (fmtDate : Nat → String) (db : NotesDB)
    (dto : UpdateNoteDTO) (ex : Note) (now : Nat)
    (hex : getNoteById db dto.id = some ex)
    (ht : dto.title = none) (hc : dto.content = none) (he : dto.emoji = none)
    (hcol : dto.color = none) (hcat : dto.categoryId = none) :
    ∃ u db2, updateNote fmtDate db dto now = (.ok u, db2) ∧
      u.title = ex.title ∧ u.content = ex.content ∧ u.emoji = ex.emoji ∧
      u.color = ex.color ∧ u.categoryId = ex.categoryId ∧
      u.date = fmtDate now ∧ u.updatedAt = now := by
  refine ⟨_, _, updateNote_ok hex, ?_, ?_, ?_, ?_, ?_, ?_, ?_⟩
  · simp [mergeNote, ht]
  · simp [mergeNote, hc]
  · simp [mergeNote, he]
  · simp [mergeNote, hcol]
  · simp [mergeNote, hcat]
  · simp [mergeNote]
  · simp [mergeNote]

theorem updateNote_id_only_refreshes_witness :
    (getNoteById [noteW] "1" = some noteW) ∧
      (∃ u db2,
        updateNote fmtW [noteW] ⟨"1", none, none, none, none, none⟩ 30 = (.ok u, db2) ∧
        u.title = noteW.title ∧ u.content = noteW.content ∧ u.emoji = noteW.emoji ∧
        u.color = noteW.color ∧ u.categoryId = noteW.categoryId ∧
        u.date = fmtW 30 ∧ u.updatedAt = 30) :=
  ⟨by decide,
    updateNote_id_only_refreshes fmtW [noteW] ⟨"1", none, none, none, none, none⟩ noteW 30
      (by decide) rfl rfl rfl rfl rfl⟩

/-- C9: `updateNote` trims a supplied title but never validates it: for an
existing note, an update whose title consists only of whitespace succeeds
and persists an empty-string title, so the non-empty-title invariant of
`createNote` is not maintained by update. -/
theorem updateNote_whitespace_title_accepted (fmtDate : Nat → String) (db : NotesDB)
    (dto : UpdateNoteDTO) (ex : Note) (now : Nat) (w : String)
    (hex : getNoteById db dto.id = some ex)
    (ht : dto.title = some w)
    (hw : w.data.all Char.isWhitespace = true) :
    ∃ u db2, updateNote fmtDate db dto now = (.ok u, db2) ∧ u.title = "" ∧
      getNoteById db2 dto.id = some u := by
  refine ⟨_, _, updateNote_ok hex, ?_, ?_⟩
  · simp [mergeNote, ht, jsTrim_of_all_whitespace hw]
  · have hid : (mergeNote ex dto fmtDate now).id = dto.id := by
      simpa [mergeNote] using getNoteById_id hex
    exact find?_map_replace hex hid

theorem updateNote_whitespace_title_accepted_witness :
    (getNoteById [noteW] "1" = some noteW) ∧ ("   ".data.all Char.isWhitespace = true) ∧
      (∃ u db2,
        updateNote fmtW [noteW] ⟨"1", some "   ", none, none, none, none⟩ 30 =
          (.ok u, db2) ∧ u.title = "" ∧ getNoteById db2 "1" = some u) :=
  ⟨by decide, by decide,
    updateNote_whitespace_title_accepted fmtW [noteW]
      ⟨"1", some "   ", none, none, none, none⟩ noteW 30 "   " (by decide) rfl (by decide)⟩

theorem takeWhile_all_append {p : Char → Bool} (xs : List Char) (y : Char) (ys : List Char)
    (hxs : ∀ x ∈ xs, p x = true) (hy : p y = false) :
    (xs ++ y :: ys).takeWhile p = xs := by
  induction xs with
  | nil => simp [List.takeWhile_cons, hy]
  | cons a t ih =>
    have ha : p a = true := hxs a (List.mem_cons_self a t)
    simp [List.takeWhile_cons, ha,
      ih (fun x hx => hxs x (List.mem_cons_of_mem a hx))]

theorem generateId_ne_of_suffix_ne (t1 t2 : Nat) {s1 s2 : String}
    (hs1 : '-' ∉ s1.data) (hs2 : '-' ∉ s2.data) (hne : s1 ≠ s2) :
    generateId t1 s1 ≠ generateId t2 s2 := by
  intro h
  apply hne
  have hdata : (toString t1).data ++ '-' :: s1.data = (toString t2).data ++ '-' :: s2.data := by
    have h2 := congrArg String.data h
    simpa [generateId, String.data_append] using h2
  have hrev : s1.data.reverse ++ '-' :: (toString t1).data.reverse
      = s2.data.reverse ++ '-' :: (toString t2).data.reverse := by
    have h3 := congrArg List.reverse hdata
    simpa [List.reverse_append] using h3
  have hp1 : ∀ x ∈ s1.data.reverse, (x != '-') = true := by
    intro x hx
    have hm : x ∈ s1.data := List.mem_reverse.mp hx
    simp only [bne_iff_ne, ne_eq]
    intro he
    exact hs1 (he ▸ hm)
  have hp2 : ∀ x ∈ s2.data.reverse, (x != '-') = true := by
    intro x hx
    have hm : x ∈ s2.data := List.mem_reverse.mp hx
    simp only [bne_iff_ne, ne_eq]
    intro he
    exact hs2 (he ▸ hm)
  have hyf : (('-' : Char) != '-') = false := by decide
  have e1 := takeWhile_all_append s1.data.reverse '-' (toString t1).data.reverse hp1 hyf
  have e2 := takeWhile_all_append s2.data.reverse '-' (toString t2).data.reverse hp2 hyf
  have hrr : s1.data.reverse = s2.data.reverse := by
    rw [← e1, hrev, e2]
  apply String.ext
  simpa using congrArg List.reverse hrr

theorem createNote_ok_fields {fmtDate : Nat → String} {db : NotesDB} {dto : CreateNoteDTO}
    {now : Nat} {sfx : String} {n : Note}
    (h : (createNote fmtDate db dto now sfx).1 = .ok n) :
    n.id = generateId now sfx ∧ n.createdAt = now ∧ n.updatedAt = now := by
  by_cases hb : jsTrim dto.title = ""
  · simp [createNote, hb] at h
  · simp only [createNote, hb, if_false, ite_false] at h
    have hn := Except.ok.inj h
    rw [← hn]
    exact ⟨rfl, rfl, rfl⟩

/-- C6: for every valid `CreateNoteDTO` with a non-empty trimmed title,
`createNote` returns a note whose `createdAt` equals its `updatedAt`, and
any two creations in the same session whose environment-supplied random id
suffixes are distinct (the base-36 suffixes contain no dash) return notes
with distinct ids. -/
theorem createNote_unique_id_and_timestamps (fmtDate : Nat → String)
    (db1 db2 : NotesDB) (dto1 dto2 : CreateNoteDTO) (t1 t2 : Nat) (s1 s2 : String)
    (n1 n2 : Note)
    (h1 : (createNote fmtDate db1 dto1 t1 s1).1 = .ok n1)
    (h2 : (createNote fmtDate db2 dto2 t2 s2).1 = .ok n2)
    (hs1 : '-' ∉ s1.data) (hs2 : '-' ∉ s2.data) (hne : s1 ≠ s2) :
    n1.id ≠ n2.id ∧ n1.createdAt = n1.updatedAt ∧ n2.createdAt = n2.updatedAt := by
  obtain ⟨hid1, hc1, hu1⟩ := createNote_ok_fields h1
  obtain ⟨hid2, hc2, hu2⟩ := createNote_ok_fields h2
  refine ⟨?_, by rw [hc1, hu1], by rw [hc2, hu2]⟩
  rw [hid1, hid2]
  exact generateId_ne_of_suffix_ne t1 t2 hs1 hs2 hne

theorem createNote_unique_id_and_timestamps_witness :
    ((createNote fmtW [] ⟨"A", "x", "e", "#f", none, none⟩ 20 "abc").1 =
        .ok ⟨"20-abc", "A", "x", "e", "20", "#f", 20, 20, none, none⟩) ∧
    ((createNote fmtW [] ⟨"B", "y", "e", "#f", none, none⟩ 21 "xyz").1 =
        .ok ⟨"21-xyz", "B", "y", "e", "21", "#f", 21, 21, none, none⟩) ∧
    ('-' ∉ "abc".data) ∧ ('-' ∉ "xyz".data) ∧ ("abc" ≠ "xyz" : Prop) ∧
    ((⟨"20-abc", "A", "x", "e", "20", "#f", 20, 20, none, none⟩ : Note).id ≠
        (⟨"21-xyz", "B", "y", "e", "21", "#f", 21, 21, none, none⟩ : Note).id ∧
      (⟨"20-abc", "A", "x", "e", "20", "#f", 20, 20, none, none⟩ : Note).createdAt =
        (⟨"20-abc", "A", "x", "e", "20", "#f", 20, 20, none, none⟩ : Note).updatedAt ∧
      (⟨"21-xyz", "B", "y", "e", "21", "#f", 21, 21, none, none⟩ : Note).createdAt =
        (⟨"21-xyz", "B", "y", "e", "21", "#f", 21, 21, none, none⟩ : Note).updatedAt) :=
  ⟨by decide, by decide, by decide, by decide, by decide,
    createNote_unique_id_and_timestamps fmtW [] []
      ⟨"A", "x", "e", "#f", none, none⟩ ⟨"B", "y", "e", "#f", none, none⟩ 20 21 "abc" "xyz"
      ⟨"20-abc", "A", "x", "e", "20", "#f", 20, 20, none, none⟩
      ⟨"21-xyz", "B", "y", "e", "21", "#f", 21, 21, none, none⟩
      (by decide) (by decide) (by decide) (by decide) (by decide)⟩

theorem geminiLoop_zero (outcomes : Nat → FetchOutcome) (attempt : Nat)
    (lastError : Option String) :
    geminiLoop outcomes 0 attempt lastError =
      { result := .error (exhaustedMsg lastError), attemptsMade := attempt, delays := [] } :=
  rfl

theorem geminiLoop_succ (outcomes : Nat → FetchOutcome) (remaining attempt : Nat)
    (lastError : Option String) :
    geminiLoop outcomes (remaining + 1) attempt lastError =
      match processOutcome (outcomes attempt) with
      | .ok r =>
        { result := .ok r, attemptsMade := attempt + 1,
          delays := if 0 < attempt then [2 ^ attempt * 1000] else [] }
      | .error e =>
        { result := (geminiLoop outcomes remaining (attempt + 1) (some e)).result,
          attemptsMade := (geminiLoop outcomes remaining (attempt + 1) (some e)).attemptsMade,
          delays := (if 0 < attempt then [2 ^ attempt * 1000] else []) ++
            (geminiLoop outcomes remaining (attempt + 1) (some e)).delays } :=
  rfl

theorem processOutcome_error_of_auth {f : FetchOutcome} (h : isAuthFailure f = true) :
    ∃ msg, processOutcome f = .error msg := by
  cases f with
  | httpError s b => exact ⟨_, rfl⟩
  | incomplete => simp [isAuthFailure] at h
  | success t a => simp [isAuthFailure] at h

theorem geminiLoop3_ok (o : Nat → FetchOutcome) (l : Option String) (r : GemeniResponse)
    (h : processOutcome (o 0) = .ok r) :
    geminiLoop o 3 0 l = { result := .ok r, attemptsMade := 1, delays := [] } := by
  rw [show (3 : Nat) = 2 + 1 from rfl, geminiLoop_succ, h]
  rfl

theorem geminiLoop3_err (o : Nat → FetchOutcome) (l : Option String) (e : String)
    (h : processOutcome (o 0) = .error e) :
    geminiLoop o 3 0 l = geminiLoop o 2 1 (some e) := by
  rw [show (3 : Nat) = 2 + 1 from rfl, geminiLoop_succ, h]
  rfl

theorem geminiLoop2_ok (o : Nat → FetchOutcome) (e0 : String) (r : GemeniResponse)
    (h : processOutcome (o 1) = .ok r) :
    geminiLoop o 2 1 (some e0) = { result := .ok r, attemptsMade := 2, delays := [2000] } := by
  rw [show (2 : Nat) = 1 + 1 from rfl, geminiLoop_succ, h]
  rfl

theorem geminiLoop2_err (o : Nat → FetchOutcome) (e0 e : String)
    (h : processOutcome (o 1) = .error e) :
    geminiLoop o 2 1 (some e0) =
      { result := (geminiLoop o 1 2 (some e)).result,
        attemptsMade := (geminiLoop o 1 2 (some e)).attemptsMade,
        delays := 2000 :: (geminiLoop o 1 2 (some e)).delays } := by
  rw [show (2 : Nat) = 1 + 1 from rfl, geminiLoop_succ, h]
  rfl

theorem geminiLoop1_ok (o : Nat → FetchOutcome) (e0 : String) (r : GemeniResponse)
    (h : processOutcome (o 2) = .ok r) :
    geminiLoop o 1 2 (some e0) = { result := .ok r, attemptsMade := 3, delays := [4000] } := by
  rw [show (1 : Nat) = 0 + 1 from rfl, geminiLoop_succ, h]
  rfl

theorem geminiLoop1_err (o : Nat → FetchOutcome) (e0 e : String)
    (h : processOutcome (o 2) = .error e) :
    geminiLoop o 1 2 (some e0) =
      { result := .error (exhaustedMsg (some e)), attemptsMade := 3, delays := [4000] } := by
  rw [show (1 : Nat) = 0 + 1 from rfl, geminiLoop_succ, h]
  rfl

/-- C3 (amended): the generator makes at most 3 attempts; the backoff
delays actually slept are a prefix of 2000 ms then 4000 ms (2 ^ i seconds
before the attempt of zero-based index i, for i = 1, 2), one per attempt
after the first. The first computed delay, 2 ^ 0 seconds, is never slept. -/
theorem gemini_retry_budget_and_backoff (apiKey : String) (outcomes : Nat → FetchOutcome) :
    (generateGeminiContent apiKey outcomes).attemptsMade ≤ 3 ∧
    (generateGeminiContent apiKey outcomes).delays =
      List.take ((generateGeminiContent apiKey outcomes).attemptsMade - 1) [2000, 4000] := by
  by_cases hk : apiKey = ""
  · simp [generateGeminiContent, hk]
  · unfold generateGeminiContent
    rw [if_neg hk, show MAX_RETRIES = 3 from rfl]
    cases hp0 : processOutcome (outcomes 0) with
    | ok r => rw [geminiLoop3_ok outcomes none r hp0]; simp
    | error e0 =>
      rw [geminiLoop3_err outcomes none e0 hp0]
      cases hp1 : processOutcome (outcomes 1) with
      | ok r => rw [geminiLoop2_ok outcomes e0 r hp1]; simp
      | error e1 =>
        rw [geminiLoop2_err outcomes e0 e1 hp1]
        cases hp2 : processOutcome (outcomes 2) with
        | ok r => rw [geminiLoop1_ok outcomes e1 r hp2]; simp
        | error e2 => rw [geminiLoop1_err outcomes e1 e2 hp2]; simp

/-- C3 counterexample: with a non-empty key and every attempt failing, the
delays actually slept are 2000 ms then 4000 ms — not the 1 s, 2 s, 4 s
wait sequence the claim states. -/
theorem gemini_backoff_counterexample :
    (generateGeminiContent "key" (fun _ => FetchOutcome.incomplete)).attemptsMade = 3 ∧
    (generateGeminiContent "key" (fun _ => FetchOutcome.incomplete)).delays = [2000, 4000] ∧
    (generateGeminiContent "key" (fun _ => FetchOutcome.incomplete)).delays ≠
      [1000, 2000, 4000] := by
  decide

/-- C2 (amended): only the missing-credential precondition fails
immediately, with zero attempts and no delay; an authorization-classified
HTTP failure (status 401/403) raised by an attempt is caught and retried
like any other failure, so with auth failures on every attempt the
generator still makes all 3 attempts, sleeping the 2000 ms and 4000 ms
backoffs, before failing. -/
theorem gemini_auth_failures_retried (apiKey : String) (outcomes : Nat → FetchOutcome)
    (hkey : apiKey ≠ "")
    (hauth : ∀ i, isAuthFailure (outcomes i) = true) :
    (generateGeminiContent "" outcomes).attemptsMade = 0 ∧
    (generateGeminiContent "" outcomes).delays = [] ∧
    (generateGeminiContent apiKey outcomes).attemptsMade = 3 ∧
    (generateGeminiContent apiKey outcomes).delays = [2000, 4000] ∧
    ∃ msg, (generateGeminiContent apiKey outcomes).result = .error msg := by
  obtain ⟨e0, hp0⟩ := processOutcome_error_of_auth (hauth 0)
  obtain ⟨e1, hp1⟩ := processOutcome_error_of_auth (hauth 1)
  obtain ⟨e2, hp2⟩ := processOutcome_error_of_auth (hauth 2)
  have hrun : generateGeminiContent apiKey outcomes =
      { result := .error (exhaustedMsg (some e2)), attemptsMade := 3,
        delays := [2000, 4000] } := by
    unfold generateGeminiContent
    rw [if_neg hkey, show MAX_RETRIES = 3 from rfl]
    rw [geminiLoop3_err outcomes none e0 hp0, geminiLoop2_err outcomes e0 e1 hp1,
      geminiLoop1_err outcomes e1 e2 hp2]
  refine ⟨by simp [generateGeminiContent], by simp [generateGeminiContent],
    by rw [hrun], by rw [hrun], ⟨exhaustedMsg (some e2), by rw [hrun]⟩⟩

theorem gemini_auth_failures_retried_witness :
    ("key" ≠ "" : Prop) ∧
    (∀ i : Nat, isAuthFailure ((fun _ => FetchOutcome.httpError 401 "x") i) = true) ∧
    ((generateGeminiContent "" (fun _ => FetchOutcome.httpError 401 "x")).attemptsMade = 0 ∧
     (generateGeminiContent "" (fun _ => FetchOutcome.httpError 401 "x")).delays = [] ∧
     (generateGeminiContent "key" (fun _ => FetchOutcome.httpError 401 "x")).attemptsMade = 3 ∧
     (generateGeminiContent "key" (fun _ => FetchOutcome.httpError 401 "x")).delays =
       [2000, 4000] ∧
     ∃ msg, (generateGeminiContent "key" (fun _ => FetchOutcome.httpError 401 "x")).result =
       .error msg) :=
  ⟨by decide, fun _ => rfl,
    gemini_auth_failures_retried "key" (fun _ => FetchOutcome.httpError 401 "x")
      (by decide) (fun _ => rfl)⟩

/-- C2 counterexample: an authorization-classified failure (HTTP 401) on
the first attempt does not stop the generator: it still makes 3 attempts
and sleeps the 2000 ms and 4000 ms backoffs. -/
theorem gemini_auth_retried_counterexample :
    isAuthFailure ((fun _ => FetchOutcome.httpError 401 "Unauthorized") 0) = true ∧
    (generateGeminiContent "key"
      (fun _ => FetchOutcome.httpError 401 "Unauthorized")).attemptsMade = 3 ∧
    (generateGeminiContent "key"
      (fun _ => FetchOutcome.httpError 401 "Unauthorized")).delays = [2000, 4000] := by
  decide

theorem importedRow_id (n : Note) : (importedRow n).id = n.id := rfl

theorem importNotes_append (db : NotesDB) (notes : List Note) :
    ∃ l, importNotes db notes = db ++ l := by
  induction notes generalizing db with
  | nil => exact ⟨[], by simp [importNotes]⟩
  | cons m rest ih =>
    cases hm : getNoteById db m.id with
    | some ex =>
      obtain ⟨l, hl⟩ := ih db
      exact ⟨l, by simp [importNotes, hm, hl]⟩
    | none =>
      obtain ⟨l, hl⟩ := ih (db ++ [importedRow m])
      exact ⟨[importedRow m] ++ l, by simp [importNotes, hm, hl]⟩

theorem getNoteById_append_left {db : NotesDB} {l : List Note} {id : String} {ex : Note}
    (h : getNoteById db id = some ex) : getNoteById (db ++ l) id = some ex := by
  unfold getNoteById at h ⊢
  rw [List.find?_append, h]
  rfl

theorem importNotes_preserves {db : NotesDB} (notes : List Note) {id : String} {ex : Note}
    (h : getNoteById db id = some ex) :
    getNoteById (importNotes db notes) id = some ex := by
  obtain ⟨l, hl⟩ := importNotes_append db notes
  rw [hl]
  exact getNoteById_append_left h

theorem getNoteById_append_one {db : NotesDB} {id : String} {u : Note}
    (h : getNoteById db id = none) (hu : u.id = id) :
    getNoteById (db ++ [u]) id = some u := by
  unfold getNoteById at h ⊢
  rw [List.find?_append, h]
  simp [hu]

theorem getNoteById_append_one_ne {db : NotesDB} {id : String} {u : Note}
    (h : getNoteById db id = none) (hne : ¬ u.id = id) :
    getNoteById (db ++ [u]) id = none := by
  unfold getNoteById at h ⊢
  rw [List.find?_append, h]
  simp [hne]

theorem importNotes_inserts : ∀ (notes : List Note), (notes.map Note.id).Nodup →
    ∀ (db : NotesDB), ∀ n ∈ notes, getNoteById db n.id = none →
      getNoteById (importNotes db notes) n.id = some (importedRow n) := by
  intro notes
  induction notes with
  | nil => intro _ db n hn; simp at hn
  | cons m rest ih =>
    intro hnodup db n hn hnone
    have hnodup2 : (rest.map Note.id).Nodup := (List.nodup_cons.mp hnodup).2
    rcases List.mem_cons.mp hn with rfl | hmem
    · rw [show importNotes db (n :: rest) = importNotes (db ++ [importedRow n]) rest from by
        simp [importNotes, hnone]]
      exact importNotes_preserves rest (getNoteById_append_one hnone (importedRow_id n))
    · cases hm : getNoteById db m.id with
      | some ex =>
        rw [show importNotes db (m :: rest) = importNotes db rest from by
          simp [importNotes, hm]]
        exact ih hnodup2 db n hmem hnone
      | none =>
        have hne : ¬ m.id = n.id := by
          intro he
          exact (List.nodup_cons.mp hnodup).1 (he ▸ List.mem_map_of_mem Note.id hmem)
        rw [show importNotes db (m :: rest) = importNotes (db ++ [importedRow m]) rest from by
          simp [importNotes, hm]]
        apply ih hnodup2 _ n hmem
        exact getNoteById_append_one_ne hnone (by rw [importedRow_id]; exact hne)

/-- C8 (amended): for each imported note (assuming pairwise-distinct ids in
the imported list), an id collision with an existing row is skipped — the
existing note is still returned by `getNoteById` afterwards — and a
non-colliding note is inserted as `importedRow`, which preserves every
field verbatim except that an empty-string `categoryId` or `userId` is
normalized to null by the JS falsy coalescing `|| null`. -/
theorem importNotes_skip_and_insert (db : NotesDB) (notes : List Note)
    (hnodup : (notes.map Note.id).Nodup) :
    (∀ id ex, getNoteById db id = some ex →
      getNoteById (importNotes db notes) id = some ex) ∧
    (∀ n ∈ notes, getNoteById db n.id = none →
      getNoteById (importNotes db notes) n.id = some (importedRow n)) ∧
    (∀ n : Note, (∀ s, n.categoryId = some s → s ≠ "") →
      (∀ s, n.userId = some s → s ≠ "") → importedRow n = n) := by
  refine ⟨fun id ex h => importNotes_preserves notes h,
    fun n hn hno => importNotes_inserts notes hnodup db n hn hno, ?_⟩
  intro n h1 h2
  have hcat : jsOrNull n.categoryId = n.categoryId := by
    cases hc : n.categoryId with
    | none => rfl
    | some s => simp [jsOrNull, h1 s hc]
  have huser : jsOrNull n.userId = n.userId := by
    cases hu : n.userId with
    | none => rfl
    | some s => simp [jsOrNull, h2 s hu]
  simp [importedRow, hcat, huser]

theorem importNotes_skip_and_insert_witness :
    (([⟨"2", "N", "c", "e", "d", "#aaa", 5, 5, some "c9", some "u1"⟩] :
        List Note).map Note.id).Nodup ∧
    ((∀ id ex, getNoteById [noteW] id = some ex →
      getNoteById (importNotes [noteW]
        [⟨"2", "N", "c", "e", "d", "#aaa", 5, 5, some "c9", some "u1"⟩]) id = some ex) ∧
    (∀ n ∈ ([⟨"2", "N", "c", "e", "d", "#aaa", 5, 5, some "c9", some "u1"⟩] : List Note),
      getNoteById [noteW] n.id = none →
      getNoteById (importNotes [noteW]
        [⟨"2", "N", "c", "e", "d", "#aaa", 5, 5, some "c9", some "u1"⟩]) n.id =
        some (importedRow n)) ∧
    (∀ n : Note, (∀ s, n.categoryId = some s → s ≠ "") →
      (∀ s, n.userId = some s → s ≠ "") → importedRow n = n)) :=
  ⟨by decide,
    importNotes_skip_and_insert [noteW]
      [⟨"2", "N", "c", "e", "d", "#aaa", 5, 5, some "c9", some "u1"⟩] (by decide)⟩

/-- C8 counterexample: a note carrying an empty-string `categoryId` is not
inserted verbatim — `note.categoryId || null` stores null instead. -/
theorem importNotes_not_verbatim_counterexample :
    importNotes [] [⟨"9", "T", "C", "e", "d", "#fff", 10, 10, some "", none⟩] =
      [⟨"9", "T", "C", "e", "d", "#fff", 10, 10, none, none⟩] ∧
    importNotes [] [⟨"9", "T", "C", "e", "d", "#fff", 10, 10, some "", none⟩] ≠
      [⟨"9", "T", "C", "e", "d", "#fff", 10, 10, some "", none⟩] := by
  decide

theorem likeMatch_nil (s : List Char) : likeMatch [] s = s.isEmpty := by
  rw [likeMatch.eq_def]

theorem likeMatch_pct_nil (ps : List Char) : likeMatch ('%' :: ps) [] = likeMatch ps [] := by
  conv_lhs => rw [likeMatch.eq_def]
  simp

theorem likeMatch_pct_cons (ps : List Char) (x : Char) (s2 : List Char) :
    likeMatch ('%' :: ps) (x :: s2) = (likeMatch ps (x :: s2) || likeMatch ('%' :: ps) s2) := by
  conv_lhs => rw [likeMatch.eq_def]
  simp

theorem likeMatch_lit_nil {c : Char} (hc : c ≠ '%') (ps : List Char) :
    likeMatch (c :: ps) [] = false := by
  rw [likeMatch.eq_def]
  simp [hc]

theorem likeMatch_lit_cons {c : Char} (hc : c ≠ '%') (hcu : c ≠ '_') (ps : List Char)
    (x : Char) (s2 : List Char) :
    likeMatch (c :: ps) (x :: s2) = if c = x then likeMatch ps s2 else false := by
  rw [likeMatch.eq_def]
  simp [hc, hcu]



theorem likeMatch_pct_iff (ps s : List Char) :
    likeMatch ('%' :: ps) s = true ↔ ∃ s1 s2, s = s1 ++ s2 ∧ likeMatch ps s2 = true := by
  induction s with
  | nil =>
    rw [likeMatch_pct_nil]
    constructor
    · intro h; exact ⟨[], [], rfl, h⟩
    · rintro ⟨s1, s2, he, h⟩
      rcases List.append_eq_nil.mp he.symm with ⟨rfl, rfl⟩
      exact h
  | cons x t ih =>
    rw [likeMatch_pct_cons, Bool.or_eq_true]
    constructor
    · rintro (h1 | h2)
      · exact ⟨[], x :: t, rfl, h1⟩
      · obtain ⟨s1, s2, he, hm⟩ := ih.mp h2
        exact ⟨x :: s1, s2, by rw [List.cons_append, ← he], hm⟩
    · rintro ⟨s1, s2, he, hm⟩
      cases s1 with
      | nil =>
        left
        simp only [List.nil_append] at he
        rw [he]
        exact hm
      | cons y s1' =>
        right
        rw [List.cons_append] at he
        obtain ⟨rfl, rfl⟩ : x = y ∧ t = s1' ++ s2 := by
          exact ⟨(List.cons.injEq _ _ _ _).mp he |>.1, (List.cons.injEq _ _ _ _).mp he |>.2⟩
        exact ih.mpr ⟨s1', s2, rfl, hm⟩

theorem likeMatch_lit_append (p : List Char) (hp : ∀ c ∈ p, c ≠ '%' ∧ c ≠ '_')
    (q : List Char) : ∀ s, likeMatch (p ++ q) s = true ↔
      ∃ s2, s = p ++ s2 ∧ likeMatch q s2 = true := by
  induction p with
  | nil => intro s; simp
  | cons c p' ih =>
    intro s
    have hc := hp c (List.mem_cons_self c p')
    have hp' : ∀ d ∈ p', d ≠ '%' ∧ d ≠ '_' := fun d hd => hp d (List.mem_cons_of_mem c hd)
    cases s with
    | nil =>
      rw [List.cons_append, likeMatch_lit_nil hc.1]
      simp
    | cons x s' =>
      rw [List.cons_append, likeMatch_lit_cons hc.1 hc.2]
      by_cases hcx : c = x
      · rw [if_pos hcx, ih hp' s']
        constructor
        · rintro ⟨s2, rfl, h⟩
          exact ⟨s2, by rw [hcx, List.cons_append], h⟩
        · rintro ⟨s2, he, h⟩
          rw [List.cons_append] at he
          exact ⟨s2, ((List.cons.injEq _ _ _ _).mp he).2, h⟩
      · rw [if_neg hcx]
        constructor
        · intro h; exact absurd h (by simp)
        · rintro ⟨s2, he, h⟩
          rw [List.cons_append] at he
          exact absurd ((List.cons.injEq _ _ _ _).mp he).1.symm hcx

theorem likeMatch_all (s : List Char) : likeMatch ['%'] s = true := by
  induction s with
  | nil => rw [likeMatch_pct_nil, likeMatch_nil]; rfl
  | cons x t ih => rw [likeMatch_pct_cons, ih, Bool.or_true]

theorem likeMatch_substr_iff (term : List Char) (hterm : ∀ c ∈ term, c ≠ '%' ∧ c ≠ '_')
    (s : List Char) : likeMatch ('%' :: (term ++ ['%'])) s = true ↔ term <:+: s := by
  rw [likeMatch_pct_iff]
  constructor
  · rintro ⟨s1, s2, rfl, h⟩
    rw [likeMatch_lit_append term hterm ['%'] s2] at h
    obtain ⟨s3, rfl, _⟩ := h
    exact ⟨s1, s3, List.append_assoc s1 term s3⟩
  · rintro ⟨s1, s3, rfl⟩
    refine ⟨s1, term ++ s3, List.append_assoc s1 term s3, ?_⟩
    rw [likeMatch_lit_append term hterm ['%'] (term ++ s3)]
    exact ⟨s3, rfl, likeMatch_all s3⟩



theorem sorted_sortByUpdatedAtDesc (rows : List Note) :
    List.Sorted byUpdatedAtDesc (sortByUpdatedAtDesc rows) :=
  List.sorted_insertionSort byUpdatedAtDesc rows

theorem mem_sortByUpdatedAtDesc {n : Note} {rows : List Note} :
    n ∈ sortByUpdatedAtDesc rows ↔ n ∈ rows :=
  List.mem_insertionSort byUpdatedAtDesc

/-- C7 (amended): for every query string whose trimmed, lower-cased form
contains no SQL LIKE wildcard (`%`, `_`), `searchNotes` performs a
case-insensitive substring match of that term against title OR content
(not whole-word), returns rows ordered by `updatedAt` descending, and for
an empty trimmed query returns exactly `getAllNotes`, in the same order.
A query containing a wildcard is instead interpreted as a LIKE pattern
(see the counterexample). -/
theorem searchNotes_trimmed_lower_substring (db : NotesDB) (query : String)
    (userId : Option String)
    (hq : ∀ c ∈ (jsTrim (jsToLower query)).data, c ≠ '%' ∧ c ≠ '_') :
    (jsTrim (jsToLower query) = "" → searchNotes db query userId = getAllNotes db userId) ∧
    (∀ n, n ∈ searchNotes db query userId ↔
      n ∈ rowsForUser db userId ∧
      (jsTrim (jsToLower query) = "" ∨
        (jsTrim (jsToLower query)).data <:+: (jsToLower n.title).data ∨
        (jsTrim (jsToLower query)).data <:+: (jsToLower n.content).data)) ∧
    List.Sorted byUpdatedAtDesc (searchNotes db query userId) := by
  by_cases he : jsTrim (jsToLower query) = ""
  · have hs : searchNotes db query userId = getAllNotes db userId := by
      simp [searchNotes, he]
    refine ⟨fun _ => hs, ?_, ?_⟩
    · intro n
      rw [hs]
      unfold getAllNotes
      rw [mem_sortByUpdatedAtDesc]
      simp [he]
    · rw [hs]
      unfold getAllNotes
      exact sorted_sortByUpdatedAtDesc _
  · have hs : searchNotes db query userId =
        sortByUpdatedAtDesc ((rowsForUser db userId).filter
          (noteMatchesLike ('%' :: ((jsTrim (jsToLower query)).toList ++ ['%'])))) := by
      simp only [searchNotes]
      rw [if_neg he]
    refine ⟨fun h => absurd h he, ?_, ?_⟩
    · intro n
      rw [hs, mem_sortByUpdatedAtDesc, List.mem_filter]
      constructor
      · rintro ⟨hmem, hmatch⟩
        refine ⟨hmem, Or.inr ?_⟩
        simp only [noteMatchesLike, Bool.or_eq_true] at hmatch
        rcases hmatch with h1 | h2
        · exact Or.inl ((likeMatch_substr_iff _ hq _).mp h1)
        · exact Or.inr ((likeMatch_substr_iff _ hq _).mp h2)
      · rintro ⟨hmem, he2 | h1 | h2⟩
        · exact absurd he2 he
        · refine ⟨hmem, ?_⟩
          simp only [noteMatchesLike, Bool.or_eq_true]
          exact Or.inl ((likeMatch_substr_iff _ hq _).mpr h1)
        · refine ⟨hmem, ?_⟩
          simp only [noteMatchesLike, Bool.or_eq_true]
          exact Or.inr ((likeMatch_substr_iff _ hq _).mpr h2)
    · rw [hs]
      exact sorted_sortByUpdatedAtDesc _

/-- C7 counterexample: the query `a_c` (trimmed and lower-cased to
itself) is not a substring of the only note's title `Abc` or content `x`,
yet `searchNotes` returns that note, because `_` is a LIKE wildcard: the
match is not a substring match for every query string. -/
theorem searchNotes_wildcard_counterexample :
    searchNotes [⟨"1", "Abc", "x", "e", "d", "#fff", 10, 10, none, none⟩] "a_c" none =
      [⟨"1", "Abc", "x", "e", "d", "#fff", 10, 10, none, none⟩] ∧
    jsTrim (jsToLower "a_c") = "a_c" ∧
    ¬ ("a_c".data <:+: (jsToLower "Abc").data) ∧
    ¬ ("a_c".data <:+: (jsToLower "x").data) := by
  refine ⟨?_, by decide, by decide, by decide⟩
  simp [searchNotes, jsTrim, jsToLower, likeMatch, sortByUpdatedAtDesc, rowsForUser,
    noteMatchesLike, List.insertionSort, List.orderedInsert, getAllNotes]

theorem searchNotes_trimmed_lower_substring_witness :
    (∀ c ∈ (jsTrim (jsToLower " MiLk ")).data, c ≠ '%' ∧ c ≠ '_') ∧
    ((jsTrim (jsToLower " MiLk ") = "" →
        searchNotes [noteW] " MiLk " none = getAllNotes [noteW] none) ∧
     (∀ n, n ∈ searchNotes [noteW] " MiLk " none ↔
        n ∈ rowsForUser [noteW] none ∧
        (jsTrim (jsToLower " MiLk ") = "" ∨
          (jsTrim (jsToLower " MiLk ")).data <:+: (jsToLower n.title).data ∨
          (jsTrim (jsToLower " MiLk ")).data <:+: (jsToLower n.content).data)) ∧
     List.Sorted byUpdatedAtDesc (searchNotes [noteW] " MiLk " none)) :=
  ⟨by decide, searchNotes_trimmed_lower_substring [noteW] " MiLk " none (by decide)⟩


end SimpleJournal
